import Mathlib

/-!
Verification of the coupon generation engine in `app.py`.

The development shallowly embeds the pure content of the program:
Python strings become `String` (lists of characters), DataFrames become a
`Frame` of named columns and rows (a row is a total map from column name to
the stringified cell value; a missing cell stringifies to "nan", as pandas
does), and the cryptographically secure random source (`secrets.choice`)
becomes an explicit stream `s : Nat → Nat` of draws, threaded by position.
A raised exception is modelled as `none` / absence of a result.
-/

/-- ASCII upper-casing of one character, as Python `str.upper` acts on ASCII. -/
def py_upper_char (c : Char) : Char :=
  match c with
  | 'a' => 'A' | 'b' => 'B' | 'c' => 'C' | 'd' => 'D' | 'e' => 'E' | 'f' => 'F' | 'g' => 'G'
  | 'h' => 'H' | 'i' => 'I' | 'j' => 'J' | 'k' => 'K' | 'l' => 'L' | 'm' => 'M' | 'n' => 'N'
  | 'o' => 'O' | 'p' => 'P' | 'q' => 'Q' | 'r' => 'R' | 's' => 'S' | 't' => 'T' | 'u' => 'U'
  | 'v' => 'V' | 'w' => 'W' | 'x' => 'X' | 'y' => 'Y' | 'z' => 'Z'
  | other => other

/-- ASCII lower-casing of one character, as Python `str.lower` acts on ASCII. -/
def py_lower_char (c : Char) : Char :=
  match c with
  | 'A' => 'a' | 'B' => 'b' | 'C' => 'c' | 'D' => 'd' | 'E' => 'e' | 'F' => 'f' | 'G' => 'g'
  | 'H' => 'h' | 'I' => 'i' | 'J' => 'j' | 'K' => 'k' | 'L' => 'l' | 'M' => 'm' | 'N' => 'n'
  | 'O' => 'o' | 'P' => 'p' | 'Q' => 'q' | 'R' => 'r' | 'S' => 's' | 'T' => 't' | 'U' => 'u'
  | 'V' => 'v' | 'W' => 'w' | 'X' => 'x' | 'Y' => 'y' | 'Z' => 'z'
  | other => other

/-- The whitespace set stripped by Python `str.strip()`. -/
def py_space (c : Char) : Bool :=
  c == ' ' || c == '\t' || c == '\n' || c == '\r' || c == '\x0b' || c == '\x0c'

/-- Python `str.upper` on an (ASCII) string. -/
def py_upper (s : String) : String := String.mk (s.data.map py_upper_char)

/-- Python `str.lower` on an (ASCII) string. -/
def py_lower (s : String) : String := String.mk (s.data.map py_lower_char)

/-- Remove leading and trailing Python whitespace from a character list. -/
def strip_list (l : List Char) : List Char :=
  ((l.dropWhile py_space).reverse.dropWhile py_space).reverse

/-- Python `str.strip()` with no argument: trim surrounding whitespace. -/
def py_strip (s : String) : String := String.mk (strip_list s.data)

/-- `listStarts hay needle` decides whether `needle` is an initial run of `hay`. -/
def listStarts : List Char → List Char → Bool
  | _, [] => true
  | [], _ :: _ => false
  | h :: hs, n :: ns => h == n && listStarts hs ns

/-- `listContains hay needle` decides whether `needle` occurs contiguously in `hay`,
the meaning of Python `needle in hay` on strings. -/
def listContains : List Char → List Char → Bool
  | [], needle => needle.isEmpty
  | h :: t, needle => listStarts (h :: t) needle || listContains t needle

/-- Python substring test `needle in hay`. -/
def strContains (hay needle : String) : Bool := listContains hay.data needle.data

/-- `str_starts s p` decides whether string `s` begins with string `p`. -/
def str_starts (s p : String) : Bool := listStarts s.data p.data

/-- The alphabet used by `generate_secure_code`:
`string.ascii_uppercase + string.digits`, 36 characters. -/
def code_alphabet : List Char := "ABCDEFGHIJKLMNOPQRSTUVWXYZ0123456789".data

/-- One draw of `secrets.choice(alphabet)`: the stream value at position `i`,
reduced modulo the alphabet size, selects a character. -/
def draw (s : Nat → Nat) (i : Nat) : Char := code_alphabet.getD (s i % 36) 'A'

/-- `k` consecutive draws starting at stream position `i`. -/
def draw_list (s : Nat → Nat) (i : Nat) : Nat → List Char
  | 0 => []
  | k + 1 => draw s i :: draw_list s (i + 1) k

/-- The `invalid_prefixes` list of `generate_secure_code` in `app.py`. -/
def invalid_pfx_list : List String := ["NAN", "NONE", "", "nan"]

/-- `generate_secure_code(prefix)` from `app.py`: draws 3 then 4 characters,
upper-cases and strips the prefix, and omits the prefix segment when the
cleaned prefix is in `invalid_prefixes`.  The second component is the
position of the random stream after the seven draws. -/
def generate_secure_code (s : Nat → Nat) (pfx : String) (pos : Nat) : String × Nat :=
  let part1 := String.mk (draw_list s pos 3)
  let part2 := String.mk (draw_list s (pos + 3) 4)
  let clean := py_strip (py_upper pfx)
  if clean ∈ invalid_pfx_list then (part1 ++ "-" ++ part2, pos + 7)
  else (clean ++ "-" ++ part1 ++ "-" ++ part2, pos + 7)

/-- Does a column name contain "name" (case-insensitively)? -/
def matches_name (c : String) : Bool := strContains (py_lower c) "name"

/-- Does a column name contain "code" or "id" (case-insensitively)? -/
def matches_id (c : String) : Bool :=
  strContains (py_lower c) "code" || strContains (py_lower c) "id"

/-- Does a column name contain "prefix" (case-insensitively)? -/
def matches_pfx (c : String) : Bool := strContains (py_lower c) "prefix"

/-- Column detection of `generate_docx` (`app.py` lines 99-110): start from the
positional defaults `df.columns[0]` / `df.columns[1]` / `None` and scan all
columns, overwriting on every match.  A table with fewer than two columns makes
`df.columns[1]` raise `IndexError`, modelled as `none`. -/
def resolve_cols (cols : List String) : Option (String × String × Option String) :=
  match cols with
  | c0 :: c1 :: _ =>
    some (cols.foldl (fun acc col =>
      (if matches_name col then col else acc.1,
       if matches_id col then col else acc.2.1,
       if matches_pfx col then some col else acc.2.2)) (c0, c1, none))
  | _ => none

/-- `COUPON_VALUE` constant of `app.py`. -/
def COUPON_VALUE : String := "₹10"

/-- One EMU length of `t` tenths of a centimetre: python-docx `Cm(t / 10)`. -/
def cm10 (t : Nat) : Nat := t * 36000

/-- One coupon cell, as filled by `create_coupon_content`: four paragraphs
holding the value label, the unique code, the holder line, and the period. -/
structure Coupon where
  value_text : String
  code : String
  holder_text : String
  period_text : String
deriving DecidableEq, Repr

/-- `create_coupon_content(cell, name, emp_id, code, date_label)` of `app.py`. -/
def create_coupon_content (nm eid code date_label : String) : Coupon :=
  { value_text := COUPON_VALUE ++ " Coupon"
  , code := code
  , holder_text := nm ++ "\n(" ++ eid ++ ")"
  , period_text := date_label }

/-- A 13 by 5 coupon table with its per-row heights, as built per employee. -/
structure DocTable where
  cells : List (List Coupon)
  row_heights : List Nat
deriving DecidableEq, Repr

/-- A body element of the produced document. -/
inductive DocElem where
  | para (text : String)
  | table (t : DocTable)
  | pageBreak
deriving DecidableEq, Repr

/-- The constructor tag of a body element. -/
inductive ElemKind where
  | para
  | table
  | pageBreak
deriving DecidableEq, Repr

/-- Forget a body element's payload. -/
def DocElem.kind : DocElem → ElemKind
  | .para _ => .para
  | .table _ => .table
  | .pageBreak => .pageBreak

/-- Page geometry of the single docx section. -/
structure PageSetup where
  page_height : Nat
  page_width : Nat
  top_margin : Nat
  bottom_margin : Nat
  left_margin : Nat
  right_margin : Nat
deriving DecidableEq, Repr

/-- The geometry set by `generate_docx` (`app.py` lines 91-97): A4 portrait,
1 cm margins on all four sides. -/
def a4_setup : PageSetup :=
  { page_height := cm10 297
  , page_width := cm10 210
  , top_margin := cm10 10
  , bottom_margin := cm10 10
  , left_margin := cm10 10
  , right_margin := cm10 10 }

/-- The produced document: geometry and a flat sequence of body elements. -/
structure Document where
  setup : PageSetup
  body : List DocElem
deriving DecidableEq, Repr

/-- The input table: ordered column names, and rows.  A row maps a column
name to the stringified cell value (`str(row[col])`); a missing cell reads
back as "nan", as a pandas NaN stringifies. -/
structure Frame where
  columns : List String
  rows : List (String → String)

/-- Per-row prefix choice of `generate_docx` (`app.py` lines 121-126):
start from the fallback and take the row's value when a prefix column was
found (a truthy column name), the value does not lower-case to "nan", and it
is not blank. -/
def pick_row_pfx (cp : Option String) (r : String → String) (dflt : String) : String :=
  match cp with
  | some cpc =>
    if cpc = "" then dflt
    else if py_lower (r cpc) ≠ "nan" ∧ py_strip (r cpc) ≠ "" then r cpc else dflt
  | none => dflt

/-- The header paragraph text of one employee page (`app.py` line 133). -/
def header_text (nm eid sel : String) : String :=
  "Name: " ++ nm ++ " (" ++ eid ++ ")  |  Month: " ++ sel

/-- Fill `k` consecutive coupon cells, threading the random stream position. -/
def gen_row_coupons (s : Nat → Nat) (pfx nm eid dt : String) :
    Nat → Nat → List Coupon × Nat
  | 0, pos => ([], pos)
  | k + 1, pos =>
    let g := generate_secure_code s pfx pos
    let rest := gen_row_coupons s pfx nm eid dt k g.2
    (create_coupon_content nm eid g.1 dt :: rest.1, rest.2)

/-- Fill `n` grid rows of 5 cells each, row-major, as the nested loops of
`app.py` lines 146-150 do. -/
def gen_grid (s : Nat → Nat) (pfx nm eid dt : String) :
    Nat → Nat → List (List Coupon) × Nat
  | 0, pos => ([], pos)
  | n + 1, pos =>
    let rowC := gen_row_coupons s pfx nm eid dt 5 pos
    let rest := gen_grid s pfx nm eid dt n rowC.2
    (rowC.1 :: rest.1, rest.2)

/-- The loop body of `generate_docx` over the roster rows (`app.py` lines
117-156): per row emit a header paragraph and a 13 by 5 table whose grid rows
all get height `Cm(1.9)`, then a page break whenever `index < len(df) - 1`. -/
def build_body (s : Nat → Nat) (cn ci : String) (cp : Option String)
    (dflt sel : String) (total : Nat) :
    List (String → String) → Nat → Nat → List DocElem
  | [], _, _ => []
  | r :: rest, idx, pos =>
    let nm := r cn
    let eid := r ci
    let cur := pick_row_pfx cp r dflt
    let grid := gen_grid s cur nm eid sel 13 pos
    DocElem.para (header_text nm eid sel) ::
      DocElem.table { cells := grid.1, row_heights := List.replicate 13 (cm10 19) } ::
      ((if idx < total - 1 then [DocElem.pageBreak] else []) ++
        build_body s cn ci cp dflt sel total rest (idx + 1) grid.2)

/-- `generate_docx(df, selected_date, default_prefix_input)` of `app.py`:
set A4 geometry, resolve columns (raising, i.e. `none`, on a table with fewer
than two columns), then emit one page per roster row. -/
def generate_docx (df : Frame) (sel dflt : String) (s : Nat → Nat) :
    Option Document :=
  match resolve_cols df.columns with
  | none => none
  | some (cn, ci, cp) =>
    some { setup := a4_setup
         , body := build_body s cn ci cp dflt sel df.rows.length df.rows 0 0 }

/-- Word characters of the regex class `\w`, over ASCII. -/
def py_word (c : Char) : Bool := c.isAlphanum || c == '_'

/-- `re.sub(r'[^\w\s-]', '', selected_date).strip().replace(' ', '_')` from
the download handler of `app.py` (line 222). -/
def safe_date (sel : String) : String :=
  let kept := sel.data.filter (fun c => py_word c || py_space c || c == '-')
  String.mk ((strip_list kept).map (fun c => if c == ' ' then '_' else c))

/-- The suggested download file name (`app.py` line 223). -/
def file_name_of (sel : String) : String := "Coupons_" ++ safe_date sel ++ ".docx"

/-- Punctuation in the sense of the spec's output-name clause: anything
outside word characters, whitespace and hyphens. -/
def spec_is_punct (c : Char) : Bool := !(py_word c || py_space c || c == '-')

/-- The file-name transform as the spec words it: strip punctuation, trim
surrounding whitespace, replace each remaining space by an underscore. -/
def spec_safe_date (sel : String) : String :=
  String.mk ((strip_list (sel.data.filter (fun c => !(spec_is_punct c)))).map
    (fun c => if c == ' ' then '_' else c))

/-- Null-like prefixes exactly as the spec of C3 words them: the empty
string, or case-insensitively "nan" or "none" (no trimming). -/
def claim_null_like (p : String) : Bool :=
  p == "" || py_lower p == "nan" || py_lower p == "none"

/-- The body-element shape the spec promises for an `n`-page document:
every page is a header paragraph followed by a table, and a page break
follows every page except the last. -/
def doc_pattern : Nat → List ElemKind
  | 0 => []
  | 1 => [ElemKind.para, ElemKind.table]
  | n + 2 => ElemKind.para :: ElemKind.table :: ElemKind.pageBreak :: doc_pattern (n + 1)

/-- Number of page breaks in a document body. -/
def break_count (body : List DocElem) : Nat :=
  (body.map DocElem.kind).count ElemKind.pageBreak

/-- The tables of a document body, in order: one per employee page. -/
def tables_of (body : List DocElem) : List DocTable :=
  body.filterMap (fun e => match e with | .table t => some t | _ => none)

/-- A coupon with empty fields, used only as a `headD` default. -/
def default_coupon : Coupon :=
  { value_text := "", code := "", holder_text := "", period_text := "" }

/-- The document produced on success, with an empty A4 document as the
(never used on the inputs considered) default. -/
def docOf (df : Frame) (sel dflt : String) (s : Nat → Nat) : Document :=
  (generate_docx df sel dflt s).getD { setup := a4_setup, body := [] }

/-- The first coupon of the first table of a document. -/
def first_code (d : Document) : String :=
  ((((tables_of d.body).headD { cells := [], row_heights := [] }).cells.headD []).headD
    default_coupon).code

/-- The all-zeros random stream: every draw selects the first alphabet
character, so every random part reads "AAA" / "AAAA". -/
def szero : Nat → Nat := fun _ => 0

/-- A roster row for the concrete test frames: "Name" maps to `nm`,
"EmpID" to `eid`, every other column to `pf`. -/
def row_fun (nm eid pf : String) : String → String :=
  fun c => if c = "Name" then nm else if c = "EmpID" then eid else pf

/-- One-row frame with no prefix column. -/
def df1 : Frame :=
  { columns := ["Name", "EmpID"], rows := [row_fun "Alice" "E1" ""] }

/-- Three-row frame with no prefix column. -/
def df3 : Frame :=
  { columns := ["Name", "EmpID"]
  , rows := [row_fun "Alice" "E1" "", row_fun "Bob" "E2" "", row_fun "Carol" "E3" ""] }

/-- One-row frame whose prefix column holds the override "none". -/
def dfC2 : Frame :=
  { columns := ["Name", "EmpID", "Prefix"], rows := [row_fun "Alice" "E1" "none"] }

/-- A coupon belongs to a row: its fields are the row's name/id/period, and
its code was produced by `generate_secure_code` with the row's effective
prefix at some stream position. -/
def coupon_ok (s : Nat → Nat) (cn ci : String) (cp : Option String)
    (dflt sel : String) (r : String → String) (c : Coupon) : Prop :=
  ∃ q, c = create_coupon_content (r cn) (r ci)
    (generate_secure_code s (pick_row_pfx cp r dflt) q).1 sel

/-- The page table emitted for a row: 13 grid rows of height `Cm(1.9)`,
each of 5 cells, every coupon belonging to the row. -/
def row_table_ok (s : Nat → Nat) (cn ci : String) (cp : Option String)
    (dflt sel : String) (r : String → String) (t : DocTable) : Prop :=
  t.row_heights = List.replicate 13 (cm10 19) ∧
  t.cells.length = 13 ∧
  ∀ rowC ∈ t.cells, rowC.length = 5 ∧ ∀ c ∈ rowC, coupon_ok s cn ci cp dflt sel r c

/-! ### String and list helper lemmas -/

theorem string_ext_data {a b : String} (h : a.data = b.data) : a = b := by
  cases a; cases b; exact congrArg String.mk h

theorem data_append (a b : String) : (a ++ b).data = a.data ++ b.data := by
  cases a; cases b; rfl

theorem str_append_assoc (a b c : String) : a ++ b ++ c = a ++ (b ++ c) := by
  apply string_ext_data
  rw [data_append, data_append, data_append, data_append, List.append_assoc]

theorem listStarts_self_append (l t : List Char) : listStarts (l ++ t) l = true := by
  induction l with
  | nil => cases t <;> rfl
  | cons h hs ih => simp [listStarts, ih]

theorem str_starts_append (x y : String) : str_starts (x ++ y) x = true := by
  unfold str_starts
  rw [data_append]
  exact listStarts_self_append x.data y.data

theorem getD_mem_of_lt :
    ∀ (l : List Char) (n : Nat) (d : Char), n < l.length → l.getD n d ∈ l := by
  intro l
  induction l with
  | nil => intro n d h; simp at h
  | cons x xs ih =>
    intro n d h
    cases n with
    | zero => simp [List.getD]
    | succ m =>
      have hm : m < xs.length := by simpa using h
      simpa [List.getD] using Or.inr (by simpa [List.getD] using ih m d hm)

theorem code_alphabet_length : code_alphabet.length = 36 := rfl

theorem draw_mem (s : Nat → Nat) (i : Nat) : draw s i ∈ code_alphabet := by
  apply getD_mem_of_lt
  rw [code_alphabet_length]
  exact Nat.mod_lt _ (by norm_num)

theorem draw_list_length (s : Nat → Nat) :
    ∀ (k i : Nat), (draw_list s i k).length = k := by
  intro k
  induction k with
  | zero => intro i; rfl
  | succ n ih => intro i; simp [draw_list, ih]

theorem draw_list_mem (s : Nat → Nat) :
    ∀ (k i : Nat), ∀ c ∈ draw_list s i k, c ∈ code_alphabet := by
  intro k
  induction k with
  | zero => intro i c hc; simp [draw_list] at hc
  | succ n ih =>
    intro i c hc
    rcases (by simpa [draw_list] using hc : c = draw s i ∨ c ∈ draw_list s (i + 1) n) with
      h | h
    · exact h ▸ draw_mem s i
    · exact ih (i + 1) c h

/-! ### Case normalisation commutes with stripping -/

theorem py_space_upper_char (c : Char) : py_space (py_upper_char c) = py_space c := by
  unfold py_upper_char
  split <;> rfl

theorem dropWhile_map_space (l : List Char) :
    (l.map py_upper_char).dropWhile py_space = (l.dropWhile py_space).map py_upper_char := by
  rw [List.dropWhile_map]
  have h : py_space ∘ py_upper_char = py_space := funext py_space_upper_char
  rw [h]

theorem strip_list_map_upper (l : List Char) :
    strip_list (l.map py_upper_char) = (strip_list l).map py_upper_char := by
  unfold strip_list
  rw [dropWhile_map_space, ← List.map_reverse, dropWhile_map_space, ← List.map_reverse]

theorem py_strip_upper_comm (p : String) :
    py_strip (py_upper p) = py_upper (py_strip p) := by
  show String.mk (strip_list (p.data.map py_upper_char)) =
    String.mk ((strip_list p.data).map py_upper_char)
  exact congrArg String.mk (strip_list_map_upper p.data)

/-! ### The column-resolution fold picks the last match -/

theorem foldl_if_last (p : String → Bool) :
    ∀ (l : List String) (a : String),
      l.foldl (fun acc col => if p col then col else acc) a = (l.reverse.find? p).getD a := by
  intro l
  induction l with
  | nil => intro a; rfl
  | cons x t ih =>
    intro a
    rw [List.foldl_cons, ih, List.reverse_cons, List.find?_append]
    cases hf : t.reverse.find? p with
    | some y => simp [hf, Option.or]
    | none =>
      cases hp : p x <;> simp [hf, hp, Option.or, List.find?]

theorem foldl_if_last_opt (p : String → Bool) :
    ∀ (l : List String) (a : Option String),
      l.foldl (fun acc col => if p col then some col else acc) a =
        (l.reverse.find? p).or a := by
  intro l
  induction l with
  | nil => intro a; rfl
  | cons x t ih =>
    intro a
    rw [List.foldl_cons, ih, List.reverse_cons, List.find?_append]
    cases hf : t.reverse.find? p with
    | some y => simp [hf, Option.or]
    | none =>
      cases hp : p x <;> simp [hf, hp, Option.or, List.find?]

theorem foldl_triple :
    ∀ (l : List String) (a b : String) (c : Option String),
      l.foldl (fun acc col =>
        (if matches_name col then col else acc.1,
         if matches_id col then col else acc.2.1,
         if matches_pfx col then some col else acc.2.2)) (a, b, c) =
      (l.foldl (fun x col => if matches_name col then col else x) a,
       l.foldl (fun x col => if matches_id col then col else x) b,
       l.foldl (fun x col => if matches_pfx col then some col else x) c) := by
  intro l
  induction l with
  | nil => intro a b c; rfl
  | cons h t ih => intro a b c; simp only [List.foldl_cons]; exact ih _ _ _

theorem resolve_cols_spec (c0 c1 : String) (rest : List String) :
    resolve_cols (c0 :: c1 :: rest) =
      some (((c0 :: c1 :: rest).reverse.find? matches_name).getD c0,
            ((c0 :: c1 :: rest).reverse.find? matches_id).getD c1,
            (c0 :: c1 :: rest).reverse.find? matches_pfx) := by
  simp only [resolve_cols]
  rw [foldl_triple, foldl_if_last, foldl_if_last, foldl_if_last_opt, Option.or_none]

/-! ### Shape of the generated codes -/

theorem gsc_eq (s : Nat → Nat) (p : String) (q : Nat) :
    generate_secure_code s p q =
      (if py_strip (py_upper p) ∈ invalid_pfx_list
       then String.mk (draw_list s q 3) ++ "-" ++ String.mk (draw_list s (q + 3) 4)
       else py_strip (py_upper p) ++ "-" ++ String.mk (draw_list s q 3) ++ "-" ++
         String.mk (draw_list s (q + 3) 4),
       q + 7) := by
  unfold generate_secure_code
  split <;> simp_all

theorem gsc_invalid (s : Nat → Nat) (p : String) (q : Nat)
    (h : py_strip (py_upper p) ∈ invalid_pfx_list) :
    (generate_secure_code s p q).1 =
      String.mk (draw_list s q 3) ++ "-" ++ String.mk (draw_list s (q + 3) 4) := by
  rw [gsc_eq]
  simp [h]

theorem gsc_valid (s : Nat → Nat) (p : String) (q : Nat)
    (h : py_strip (py_upper p) ∉ invalid_pfx_list) :
    (generate_secure_code s p q).1 =
      py_strip (py_upper p) ++ "-" ++ String.mk (draw_list s q 3) ++ "-" ++
        String.mk (draw_list s (q + 3) 4) := by
  rw [gsc_eq]
  simp [h]

theorem gsc_valid_starts (s : Nat → Nat) (p : String) (q : Nat)
    (h : py_strip (py_upper p) ∉ invalid_pfx_list) :
    str_starts (generate_secure_code s p q).1 (py_strip (py_upper p) ++ "-") = true := by
  rw [gsc_valid s p q h, str_append_assoc, str_append_assoc]
  exact str_starts_append _ _

/-! ### The per-row build of coupons, grids and body elements -/

theorem gen_row_coupons_ok (s : Nat → Nat) (pfx nm eid dt : String) :
    ∀ (k pos : Nat),
      (gen_row_coupons s pfx nm eid dt k pos).1.length = k ∧
      ∀ c ∈ (gen_row_coupons s pfx nm eid dt k pos).1,
        ∃ q, c = create_coupon_content nm eid (generate_secure_code s pfx q).1 dt := by
  intro k
  induction k with
  | zero => intro pos; exact ⟨rfl, by intro c hc; simp [gen_row_coupons] at hc⟩
  | succ n ih =>
    intro pos
    constructor
    · simpa [gen_row_coupons] using (ih (generate_secure_code s pfx pos).2).1
    · intro c hc
      rcases (by simpa [gen_row_coupons] using hc :
        c = create_coupon_content nm eid (generate_secure_code s pfx pos).1 dt ∨
          c ∈ (gen_row_coupons s pfx nm eid dt n (generate_secure_code s pfx pos).2).1) with
        h | h
      · exact ⟨pos, h⟩
      · exact (ih (generate_secure_code s pfx pos).2).2 c h

theorem gen_grid_ok (s : Nat → Nat) (pfx nm eid dt : String) :
    ∀ (n pos : Nat),
      (gen_grid s pfx nm eid dt n pos).1.length = n ∧
      ∀ rowC ∈ (gen_grid s pfx nm eid dt n pos).1,
        rowC.length = 5 ∧
        ∀ c ∈ rowC,
          ∃ q, c = create_coupon_content nm eid (generate_secure_code s pfx q).1 dt := by
  intro n
  induction n with
  | zero => intro pos; exact ⟨rfl, by intro rowC h; simp [gen_grid] at h⟩
  | succ m ih =>
    intro pos
    constructor
    · simpa [gen_grid] using (ih (gen_row_coupons s pfx nm eid dt 5 pos).2).1
    · intro rowC hr
      rcases (by simpa [gen_grid] using hr :
        rowC = (gen_row_coupons s pfx nm eid dt 5 pos).1 ∨
          rowC ∈ (gen_grid s pfx nm eid dt m (gen_row_coupons s pfx nm eid dt 5 pos).2).1) with
        h | h
      · subst h
        exact ⟨(gen_row_coupons_ok s pfx nm eid dt 5 pos).1,
               (gen_row_coupons_ok s pfx nm eid dt 5 pos).2⟩
      · exact (ih (gen_row_coupons s pfx nm eid dt 5 pos).2).2 rowC h

/-! ### Body structure lemmas -/

theorem tables_of_nil : tables_of [] = [] := rfl

theorem build_body_cons (s : Nat → Nat) (cn ci : String) (cp : Option String)
    (dflt sel : String) (total : Nat) (r : String → String)
    (rest : List (String → String)) (idx pos : Nat) :
    build_body s cn ci cp dflt sel total (r :: rest) idx pos =
      DocElem.para (header_text (r cn) (r ci) sel) ::
      DocElem.table
        { cells := (gen_grid s (pick_row_pfx cp r dflt) (r cn) (r ci) sel 13 pos).1
        , row_heights := List.replicate 13 (cm10 19) } ::
      ((if idx < total - 1 then [DocElem.pageBreak] else []) ++
        build_body s cn ci cp dflt sel total rest (idx + 1)
          (gen_grid s (pick_row_pfx cp r dflt) (r cn) (r ci) sel 13 pos).2) := rfl

theorem build_body_tables (s : Nat → Nat) (cn ci : String) (cp : Option String)
    (dflt sel : String) (total : Nat) :
    ∀ (rows : List (String → String)) (idx pos : Nat),
      List.Forall₂ (row_table_ok s cn ci cp dflt sel) rows
        (tables_of (build_body s cn ci cp dflt sel total rows idx pos)) := by
  intro rows
  induction rows with
  | nil => intro idx pos; exact List.Forall₂.nil
  | cons r rest ih =>
    intro idx pos
    have htail :
        tables_of (build_body s cn ci cp dflt sel total (r :: rest) idx pos) =
          { cells := (gen_grid s (pick_row_pfx cp r dflt) (r cn) (r ci) sel 13 pos).1
          , row_heights := List.replicate 13 (cm10 19) } ::
          tables_of (build_body s cn ci cp dflt sel total rest (idx + 1)
            (gen_grid s (pick_row_pfx cp r dflt) (r cn) (r ci) sel 13 pos).2) := by
      by_cases h : idx < total - 1 <;>
        simp [build_body, tables_of, h, List.filterMap_cons, List.filterMap_append]
    rw [htail]
    refine List.Forall₂.cons ?_ (ih (idx + 1) _)
    refine ⟨rfl, ?_, ?_⟩
    · exact (gen_grid_ok s (pick_row_pfx cp r dflt) (r cn) (r ci) sel 13 pos).1
    · intro rowC hr
      exact (gen_grid_ok s (pick_row_pfx cp r dflt) (r cn) (r ci) sel 13 pos).2 rowC hr

theorem build_body_kinds (s : Nat → Nat) (cn ci : String) (cp : Option String)
    (dflt sel : String) (total : Nat) :
    ∀ (rows : List (String → String)) (idx pos : Nat), idx + rows.length = total →
      (build_body s cn ci cp dflt sel total rows idx pos).map DocElem.kind =
        doc_pattern rows.length := by
  intro rows
  induction rows with
  | nil => intro idx pos _; rfl
  | cons r rest ih =>
    intro idx pos htot
    cases rest with
    | nil =>
      have hidx : ¬ idx < total - 1 := by
        simp at htot
        omega
      simp [build_body, hidx, doc_pattern, DocElem.kind]
    | cons r2 rest2 =>
      have hidx : idx < total - 1 := by
        simp at htot
        omega
      have htot2 : (idx + 1) + (r2 :: rest2).length = total := by
        simp at htot ⊢
        omega
      have hrec :
          (build_body s cn ci cp dflt sel total (r2 :: rest2) (idx + 1)
            (gen_grid s (pick_row_pfx cp r dflt) (r cn) (r ci) sel 13 pos).2).map
              DocElem.kind = doc_pattern (rest2.length + 1) := by
        simpa using
          ih (idx + 1) (gen_grid s (pick_row_pfx cp r dflt) (r cn) (r ci) sel 13 pos).2 htot2
      show _ = doc_pattern (rest2.length + 2)
      rw [build_body_cons, if_pos hidx]
      simp only [List.map_cons, List.singleton_append, DocElem.kind]
      rw [show doc_pattern (rest2.length + 2) =
        ElemKind.para :: ElemKind.table :: ElemKind.pageBreak :: doc_pattern (rest2.length + 1)
        from rfl]
      rw [hrec]

theorem doc_pattern_break_count :
    ∀ n : Nat, (doc_pattern n).count ElemKind.pageBreak = n - 1 := by
  intro n
  induction n with
  | zero => rfl
  | succ m ih =>
    cases m with
    | zero => rfl
    | succ k =>
      have hstep :
          doc_pattern (k + 2) =
            ElemKind.para :: ElemKind.table :: ElemKind.pageBreak :: doc_pattern (k + 1) := rfl
      rw [hstep]
      have h1 :
          (ElemKind.para :: ElemKind.table :: ElemKind.pageBreak ::
            doc_pattern (k + 1)).count ElemKind.pageBreak =
            (doc_pattern (k + 1)).count ElemKind.pageBreak + 1 := by
        simp [List.count_cons, beq_iff_eq]
      rw [h1, ih]
      omega

theorem generate_docx_some (df : Frame) (sel dflt : String) (s : Nat → Nat)
    (cn ci : String) (cp : Option String)
    (hres : resolve_cols df.columns = some (cn, ci, cp)) :
    generate_docx df sel dflt s =
      some { setup := a4_setup
           , body := build_body s cn ci cp dflt sel df.rows.length df.rows 0 0 } := by
  unfold generate_docx
  rw [hres]

/-! ### Claim theorems -/

/-- C1, counterexample: with columns ["Name", "NickName"] both names contain
"name"; the first matching column is "Name", but the code's scan overwrites on
every match and returns "NickName" for both the name and the
(positionally defaulted, here also overwritten by no id match - the id stays
the positional "NickName") choice, so the claim "the FIRST matching column is
chosen" is false. -/
theorem C1_counterexample :
    resolve_cols ["Name", "NickName"] = some ("NickName", "NickName", none) ∧
    List.find? matches_name ["Name", "NickName"] = some "Name" ∧
    ("NickName" : String) ≠ "Name" := by
  exact ⟨by decide, by decide, by decide⟩

/-- C1 (amended): column resolution selects, for each role, the LAST column
(in the table's given column order) whose lower-cased name contains the
role's substring, falling back to column 0 / column 1 / absent when no
column matches; equivalently, the first match in the reversed column list. -/
theorem C1_last_match_resolution (c0 c1 : String) (rest : List String) :
    resolve_cols (c0 :: c1 :: rest) =
      some (((c0 :: c1 :: rest).reverse.find? matches_name).getD c0,
            ((c0 :: c1 :: rest).reverse.find? matches_id).getD c1,
            (c0 :: c1 :: rest).reverse.find? matches_pfx) :=
  resolve_cols_spec c0 c1 rest

/-- C3, counterexample: the effective prefix " nan " is reachable (it passes
the per-row gate since its untrimmed lower-casing is not "nan" and it is not
blank), and it is not null-like in the claim's sense (empty, or
case-insensitively "nan"/"none"); yet the generated code carries no prefix
segment: it is the bare 3-4 form with a single hyphen. -/
theorem C3_counterexample :
    claim_null_like " nan " = false ∧
    pick_row_pfx (some "Prefix") (row_fun "Alice" "E1" " nan ") "EMP" = " nan " ∧
    (generate_secure_code szero " nan " 0).1 = "AAA-AAAA" ∧
    ("AAA-AAAA" : String).data.count '-' = 1 := by
  exact ⟨rfl, rfl, rfl, rfl⟩

/-- C3 (amended): every generated code is of the form [PREFIX-]AAA-BBBB with
AAA exactly 3 and BBBB exactly 4 characters from the 36-character alphabet of
uppercase ASCII letters and digits; the PREFIX- segment is omitted exactly
when the upper-cased and whitespace-trimmed effective prefix is empty, "NAN"
or "NONE" (the check is performed on this normalised form, not on the raw
effective prefix). -/
theorem C3_code_shape (s : Nat → Nat) (p : String) (q : Nat) :
    code_alphabet.length = 36 ∧
    ∃ a b : List Char, a.length = 3 ∧ b.length = 4 ∧
      (∀ c ∈ a, c ∈ code_alphabet) ∧ (∀ c ∈ b, c ∈ code_alphabet) ∧
      (generate_secure_code s p q).1 =
        (if py_strip (py_upper p) ∈ invalid_pfx_list
         then String.mk a ++ "-" ++ String.mk b
         else py_strip (py_upper p) ++ "-" ++ String.mk a ++ "-" ++ String.mk b) := by
  refine ⟨rfl, draw_list s q 3, draw_list s (q + 3) 4, draw_list_length s 3 q,
    draw_list_length s 4 (q + 3), draw_list_mem s 3 q, draw_list_mem s 4 (q + 3), ?_⟩
  by_cases h : py_strip (py_upper p) ∈ invalid_pfx_list
  · rw [if_pos h]
    exact gsc_invalid s p q h
  · rw [if_neg h]
    exact gsc_valid s p q h

/-- C6, counterexample: on tables with fewer than two columns the resolver
does raise (modelled as `none`, the `IndexError` of `df.columns[1]`), so it
is not total over tables of any number of columns. -/
theorem C6_counterexample :
    resolve_cols ["Employee"] = none ∧ resolve_cols [] = none := by
  exact ⟨rfl, rfl⟩

/-- C6 (amended): for every table with at least two columns the resolver
never raises: it returns some choice for the name and id columns (and
possibly an absent prefix column), and when no column name matches any role
it returns the positional defaults: column 0 for name, column 1 for
identifier, prefix absent. -/
theorem C6_resolver_total (c0 c1 : String) (rest : List String) :
    (resolve_cols (c0 :: c1 :: rest)).isSome = true ∧
    ((∀ col ∈ c0 :: c1 :: rest,
        matches_name col = false ∧ matches_id col = false ∧ matches_pfx col = false) →
      resolve_cols (c0 :: c1 :: rest) = some (c0, c1, none)) := by
  constructor
  · rw [resolve_cols_spec]
    rfl
  · intro h
    rw [resolve_cols_spec]
    have hn : (c0 :: c1 :: rest).reverse.find? matches_name = none := by
      rw [List.find?_eq_none]
      intro x hx
      simp [(h x (List.mem_reverse.mp hx)).1]
    have hi : (c0 :: c1 :: rest).reverse.find? matches_id = none := by
      rw [List.find?_eq_none]
      intro x hx
      simp [(h x (List.mem_reverse.mp hx)).2.1]
    have hp : (c0 :: c1 :: rest).reverse.find? matches_pfx = none := by
      rw [List.find?_eq_none]
      intro x hx
      simp [(h x (List.mem_reverse.mp hx)).2.2]
    rw [hn, hi, hp]
    rfl

/-- C6, witness: the spec's own example, columns ["Employee", "Badge", "X"]
with no matching substrings, resolves to ("Employee", "Badge", absent). -/
theorem C6_witness :
    (resolve_cols ["Employee", "Badge", "X"]).isSome = true ∧
    resolve_cols ["Employee", "Badge", "X"] = some ("Employee", "Badge", none) :=
  ⟨(C6_resolver_total "Employee" "Badge" ["X"]).1,
   (C6_resolver_total "Employee" "Badge" ["X"]).2 (by decide)⟩

/-- C7, counterexample: with a well-formed two-column table and zero rows the
engine does not fail: it returns a buffer holding a document with an empty
body (no pages, no coupons), rather than raising any empty-roster error. -/
theorem C7_counterexample :
    generate_docx { columns := ["Name", "EmpID"], rows := [] } "March 2025" "EMP" szero =
      some { setup := a4_setup, body := [] } := rfl

/-- C7 (amended): when zero rows are supplied (and the table has at least two
columns so that column resolution succeeds), `generate_docx` does not raise:
it successfully returns a document with A4 geometry and an empty body. -/
theorem C7_empty_roster (c0 c1 : String) (rest : List String) (sel dflt : String)
    (s : Nat → Nat) :
    generate_docx { columns := c0 :: c1 :: rest, rows := [] } sel dflt s =
      some { setup := a4_setup, body := [] } := by
  have h := generate_docx_some { columns := c0 :: c1 :: rest, rows := [] } sel dflt s
    _ _ _ (resolve_cols_spec c0 c1 rest)
  simpa [build_body] using h

/-- C9 (confirmed): the suggested file name is "Coupons_" followed by the
period label with punctuation (anything outside word characters, whitespace
and hyphens) stripped, surrounding whitespace trimmed, and each remaining
space replaced by an underscore, followed by ".docx". -/
theorem C9_file_name (sel : String) :
    file_name_of sel = "Coupons_" ++ spec_safe_date sel ++ ".docx" := by
  have h : spec_safe_date sel = safe_date sel := by
    unfold spec_safe_date safe_date
    have hfil : sel.data.filter (fun c => !(spec_is_punct c)) =
        sel.data.filter (fun c => py_word c || py_space c || c == '-') := by
      apply List.filter_congr
      intro x _
      simp [spec_is_punct]
    rw [hfil]
  rw [file_name_of, h]

/-- C10 (confirmed): before being prepended, the effective prefix is
normalised by upper-casing and trimming surrounding whitespace; every code
for a non-null-like prefix starts with the normalised prefix followed by a
hyphen, and null-likeness is decided on the normalised form, so a prefix
whose normalisation is empty, "NAN" or "NONE" yields a bare, unprefixed
3-4 code. -/
theorem C10_pfx_normalised (s : Nat → Nat) (p : String) (q : Nat) :
    (py_upper (py_strip p) ∉ invalid_pfx_list →
      str_starts (generate_secure_code s p q).1 (py_upper (py_strip p) ++ "-") = true) ∧
    (py_upper (py_strip p) ∈ invalid_pfx_list →
      ∃ a b : List Char, a.length = 3 ∧ b.length = 4 ∧
        (generate_secure_code s p q).1 = String.mk a ++ "-" ++ String.mk b) := by
  rw [← py_strip_upper_comm]
  constructor
  · intro h
    exact gsc_valid_starts s p q h
  · intro h
    exact ⟨draw_list s q 3, draw_list s (q + 3) 4, draw_list_length s 3 q,
      draw_list_length s 4 (q + 3), gsc_invalid s p q h⟩

/-- C10, witness: the prefix "vip " normalises to "VIP" and prefixes the
code; the prefix " None " normalises to "NONE" and is omitted. -/
theorem C10_witness :
    (py_upper (py_strip "vip ") ∉ invalid_pfx_list ∧
      str_starts (generate_secure_code szero "vip " 0).1
        (py_upper (py_strip "vip ") ++ "-") = true) ∧
    (py_upper (py_strip " None ") ∈ invalid_pfx_list ∧
      ∃ a b : List Char, a.length = 3 ∧ b.length = 4 ∧
        (generate_secure_code szero " None " 0).1 = String.mk a ++ "-" ++ String.mk b) :=
  ⟨⟨by decide, (C10_pfx_normalised szero "vip " 0).1 (by decide)⟩,
   ⟨by decide, (C10_pfx_normalised szero " None " 0).2 (by decide)⟩⟩

theorem forall₂_mem_right {α β : Type} {R : α → β → Prop} :
    ∀ {l₁ : List α} {l₂ : List β}, List.Forall₂ R l₁ l₂ → ∀ b ∈ l₂, ∃ a, R a b := by
  intro l₁ l₂ h
  induction h with
  | nil => intro b hb; simp at hb
  | @cons a b l₁ l₂ hr hrest ih =>
    intro x hx
    rcases (by simpa using hx : x = b ∨ x ∈ l₂) with h1 | h2
    · exact ⟨a, h1 ▸ hr⟩
    · exact ih x h2

/-- C2, counterexample: for a row whose prefix override is "none" and
fallback prefix "EMP", the claim says every code of the row starts with
"EMP-"; but the per-row gate only rejects "nan" and blank values, so "none"
is taken as the effective prefix, and `generate_secure_code` then strips it
as null-like: the row's codes are bare and do not start with "EMP-". -/
theorem C2_counterexample :
    pick_row_pfx (some "Prefix") (row_fun "Alice" "E1" "none") "EMP" = "none" ∧
    first_code (docOf dfC2 "March 2025" "EMP" szero) = "AAA-AAAA" ∧
    str_starts "AAA-AAAA" "EMP-" = false := by
  exact ⟨rfl, rfl, rfl⟩

/-- C2 (amended): the effective prefix of a row is `row.prefix_override`
when a prefix column exists and the override neither lower-cases (untrimmed)
to "nan" nor is blank after trimming; otherwise it is `fallback_prefix`
(this is `pick_row_pfx`).  Every code of the row is then generated from that
effective prefix: when its upper-cased trimmed form is not null-like the
code starts with that form followed by "-" (so override "VIP" with fallback
"EMP" gives "VIP-" codes, and an absent/"nan" override gives "EMP-" codes);
but when the effective prefix normalises to a null-like token - as the
override "none" does - the row's codes are bare, with no prefix at all. -/
theorem C2_effective_code_start (df : Frame) (sel dflt : String) (s : Nat → Nat)
    (cn ci : String) (cp : Option String) (d : Document)
    (hres : resolve_cols df.columns = some (cn, ci, cp))
    (hgen : generate_docx df sel dflt s = some d) :
    List.Forall₂ (fun r t =>
      ∀ rowC ∈ t.cells, ∀ c ∈ rowC,
        (py_strip (py_upper (pick_row_pfx cp r dflt)) ∉ invalid_pfx_list →
          str_starts c.code
            (py_strip (py_upper (pick_row_pfx cp r dflt)) ++ "-") = true) ∧
        (py_strip (py_upper (pick_row_pfx cp r dflt)) ∈ invalid_pfx_list →
          ∃ q, c.code =
            String.mk (draw_list s q 3) ++ "-" ++ String.mk (draw_list s (q + 3) 4)))
      df.rows (tables_of d.body) := by
  rw [generate_docx_some df sel dflt s cn ci cp hres] at hgen
  injection hgen with h
  subst h
  refine List.Forall₂.imp ?_
    (build_body_tables s cn ci cp dflt sel df.rows.length df.rows 0 0)
  intro r t ht
  intro rowC hrc c hc
  obtain ⟨-, -, hcells⟩ := ht
  obtain ⟨-, hcoup⟩ := hcells rowC hrc
  obtain ⟨q, hq⟩ := hcoup c hc
  have hcode : c.code = (generate_secure_code s (pick_row_pfx cp r dflt) q).1 := by
    rw [hq]
    rfl
  constructor
  · intro hval
    rw [hcode]
    exact gsc_valid_starts s _ q hval
  · intro hinv
    rw [hcode, gsc_invalid s _ q hinv]
    exact ⟨q, rfl⟩

/-- C2, witness: the one-row frame whose override is "none" with fallback
"EMP" satisfies the amended per-row code property. -/
theorem C2_witness :
    List.Forall₂ (fun r t =>
      ∀ rowC ∈ t.cells, ∀ c ∈ rowC,
        (py_strip (py_upper (pick_row_pfx (some "Prefix") r "EMP")) ∉ invalid_pfx_list →
          str_starts c.code
            (py_strip (py_upper (pick_row_pfx (some "Prefix") r "EMP")) ++ "-") = true) ∧
        (py_strip (py_upper (pick_row_pfx (some "Prefix") r "EMP")) ∈ invalid_pfx_list →
          ∃ q, c.code =
            String.mk (draw_list szero q 3) ++ "-" ++
              String.mk (draw_list szero (q + 3) 4)))
      dfC2.rows (tables_of (docOf dfC2 "March 2025" "EMP" szero).body) :=
  C2_effective_code_start dfC2 "March 2025" "EMP" szero "Name" "EmpID" (some "Prefix")
    (docOf dfC2 "March 2025" "EMP" szero) rfl rfl

/-- C4 (confirmed): for every non-empty roster the emitted document contains
exactly one table per roster row, in input order; every table has exactly 13
grid rows of exactly 5 cells (65 coupons), and every coupon of a row's page
is produced by `generate_secure_code` with that row's effective prefix. -/
theorem C4_grid_cardinality (df : Frame) (sel dflt : String) (s : Nat → Nat)
    (cn ci : String) (cp : Option String) (d : Document)
    (hne : df.rows ≠ [])
    (hres : resolve_cols df.columns = some (cn, ci, cp))
    (hgen : generate_docx df sel dflt s = some d) :
    (tables_of d.body).length = df.rows.length ∧
    List.Forall₂ (fun r t =>
      t.cells.length = 13 ∧
      ∀ rowC ∈ t.cells, rowC.length = 5 ∧
        ∀ c ∈ rowC, ∃ q,
          c = create_coupon_content (r cn) (r ci)
            (generate_secure_code s (pick_row_pfx cp r dflt) q).1 sel)
      df.rows (tables_of d.body) := by
  rw [generate_docx_some df sel dflt s cn ci cp hres] at hgen
  injection hgen with h
  subst h
  have hmaster := build_body_tables s cn ci cp dflt sel df.rows.length df.rows 0 0
  constructor
  · exact hmaster.length_eq.symm
  · refine List.Forall₂.imp ?_ hmaster
    intro r t ht
    obtain ⟨-, hlen, hcells⟩ := ht
    exact ⟨hlen, hcells⟩

/-- C4, witness: the one-row frame `df1` yields exactly one table of 13 rows
of 5 coupons each. -/
theorem C4_witness :
    (tables_of (docOf df1 "March 2025" "EMP" szero).body).length = df1.rows.length ∧
    List.Forall₂ (fun r t =>
      t.cells.length = 13 ∧
      ∀ rowC ∈ t.cells, rowC.length = 5 ∧
        ∀ c ∈ rowC, ∃ q,
          c = create_coupon_content (r "Name") (r "EmpID")
            (generate_secure_code szero (pick_row_pfx none r "EMP") q).1 "March 2025")
      df1.rows (tables_of (docOf df1 "March 2025" "EMP" szero).body) :=
  C4_grid_cardinality df1 "March 2025" "EMP" szero "Name" "EmpID" none
    (docOf df1 "March 2025" "EMP" szero) (by simp [df1]) rfl rfl

/-- C5 (confirmed): the document body is exactly a header paragraph and a
table per roster row with a page break after every page except the last
(`doc_pattern`), and the number of page breaks is exactly `N - 1`. -/
theorem C5_page_breaks (df : Frame) (sel dflt : String) (s : Nat → Nat) (d : Document)
    (hgen : generate_docx df sel dflt s = some d) :
    d.body.map DocElem.kind = doc_pattern df.rows.length ∧
    break_count d.body = df.rows.length - 1 := by
  cases hr : resolve_cols df.columns with
  | none =>
    unfold generate_docx at hgen
    rw [hr] at hgen
    simp at hgen
  | some trip =>
    obtain ⟨cn, ci, cp⟩ := trip
    rw [generate_docx_some df sel dflt s cn ci cp hr] at hgen
    injection hgen with h
    subst h
    have hk := build_body_kinds s cn ci cp dflt sel df.rows.length df.rows 0 0 (by simp)
    constructor
    · exact hk
    · unfold break_count
      rw [hk]
      exact doc_pattern_break_count df.rows.length

/-- C5, witness: the three-row frame `df3` yields the shape
page, break, page, break, page - exactly two page breaks, after page 1 and
page 2 and none after page 3. -/
theorem C5_witness :
    (docOf df3 "March 2025" "EMP" szero).body.map DocElem.kind = doc_pattern 3 ∧
    break_count (docOf df3 "March 2025" "EMP" szero).body = 2 :=
  C5_page_breaks df3 "March 2025" "EMP" szero (docOf df3 "March 2025" "EMP" szero) rfl

/-- C8 (confirmed): every generated document uses A4 geometry - page
21.0 by 29.7 cm, all four margins exactly 1.0 cm - and every grid row height
lies in the 1.9 to 2.0 cm range (all are set to exactly 1.9 cm). -/
theorem C8_page_geometry (df : Frame) (sel dflt : String) (s : Nat → Nat) (d : Document)
    (hgen : generate_docx df sel dflt s = some d) :
    d.setup.page_width = cm10 210 ∧ d.setup.page_height = cm10 297 ∧
    d.setup.top_margin = cm10 10 ∧ d.setup.bottom_margin = cm10 10 ∧
    d.setup.left_margin = cm10 10 ∧ d.setup.right_margin = cm10 10 ∧
    ∀ t ∈ tables_of d.body, ∀ hgt ∈ t.row_heights, cm10 19 ≤ hgt ∧ hgt ≤ cm10 20 := by
  cases hr : resolve_cols df.columns with
  | none =>
    unfold generate_docx at hgen
    rw [hr] at hgen
    simp at hgen
  | some trip =>
    obtain ⟨cn, ci, cp⟩ := trip
    rw [generate_docx_some df sel dflt s cn ci cp hr] at hgen
    injection hgen with h
    subst h
    refine ⟨rfl, rfl, rfl, rfl, rfl, rfl, ?_⟩
    intro t ht hgt hh
    obtain ⟨r, hR⟩ := forall₂_mem_right
      (build_body_tables s cn ci cp dflt sel df.rows.length df.rows 0 0) t ht
    obtain ⟨hheights, -, -⟩ := hR
    rw [hheights, List.mem_replicate] at hh
    rw [hh.2]
    constructor
    · exact le_refl _
    · norm_num [cm10]

/-- C8, witness: the one-row frame `df1` yields an A4 document whose only
table has all row heights in the 1.9 to 2.0 cm range. -/
theorem C8_witness :
    (docOf df1 "March 2025" "EMP" szero).setup.page_width = cm10 210 ∧
    (docOf df1 "March 2025" "EMP" szero).setup.page_height = cm10 297 ∧
    (docOf df1 "March 2025" "EMP" szero).setup.top_margin = cm10 10 ∧
    (docOf df1 "March 2025" "EMP" szero).setup.bottom_margin = cm10 10 ∧
    (docOf df1 "March 2025" "EMP" szero).setup.left_margin = cm10 10 ∧
    (docOf df1 "March 2025" "EMP" szero).setup.right_margin = cm10 10 ∧
    ∀ t ∈ tables_of (docOf df1 "March 2025" "EMP" szero).body,
      ∀ hgt ∈ t.row_heights, cm10 19 ≤ hgt ∧ hgt ≤ cm10 20 :=
  C8_page_geometry df1 "March 2025" "EMP" szero (docOf df1 "March 2025" "EMP" szero) rfl
